import Mathlib

/-!
Verification of the `super-pi-sdk` core (`pi_coin` package) against its
natural-language specification.

The Python source is shallowly embedded: pure computations become Lean
functions, Python floats become exact rationals (the spec models amounts as
`decimal`), a raised exception becomes `Option.none` (or an `Except` error for
the typed errors of `PiCoin.__init__`), and the class-level mutable counter
`PiCoin._global_supply` becomes explicit state passing.  Machine-learning
models (`IsolationForest`, `RandomForestClassifier`) are pluggable black-box
predicates in the spec, so their fitted predictions are passed as function
parameters; everything that surrounds them (sample bookkeeping, thresholds,
fitted / unfitted bookkeeping) is translated from the source.  The RSA-PSS
calls into the `cryptography` library are modelled symbolically: a signature
is the signed message tagged with the identity of the signing keypair.
-/

namespace PiSDK

/-- Constant `TOTAL_SUPPLY = 100_000_000_000` from `pi_coin/__init__.py`. -/
def TOTAL_SUPPLY : ℚ := 100000000000

/-- Constant `PI_VALUE_USD = 314_159` from `pi_coin/__init__.py`. -/
def PI_VALUE_USD : ℚ := 314159

/-- Constant `ALLOWED_SOURCES = ["mining", "rewards", "p2p"]` from
`pi_coin/utils/config.py` (the same list appears as `ECOSYSTEM_SOURCES` in
`pi_coin/__init__.py`). -/
def ALLOWED_SOURCES : List String := ["mining", "rewards", "p2p"]

/-- Constant `REJECTED_SOURCES = ["exchange", "unknown", "illicit"]` from
`pi_coin/utils/config.py`. -/
def REJECTED_SOURCES : List String := ["exchange", "unknown", "illicit"]

/-!
EcosystemMonitor (`pi_coin/__init__.py`, class `EcosystemMonitor`)

`self.data` is the accumulated historical sample.  The `IsolationForest`
member is represented by the sample it was last fitted on (`Option.none`
while it has never been fitted); the fitted prediction itself is a black-box
parameter `P : List Rat -> Rat -> Bool` taking the fitted sample and the
queried value.  Calling `model.predict` on a never-fitted model raises
`NotFittedError` in sklearn, which the embedding renders as `Option.none`.
-/

structure EcosystemMonitor where
  data : List ℚ
  fitted : Option (List ℚ)
deriving DecidableEq

/-- State after `EcosystemMonitor.__init__`: empty sample, never-fitted model. -/
def EcosystemMonitor.start : EcosystemMonitor := ⟨[], none⟩

/-- Method `EcosystemMonitor.train`: `self.data.extend(transactions)`, then fit the
model on the whole sample only when `len(self.data) > 100`. -/
def EcosystemMonitor.train (m : EcosystemMonitor) (transactions : List ℚ) :
    EcosystemMonitor :=
  let d := m.data ++ transactions
  if 100 < d.length then ⟨d, some d⟩ else ⟨d, m.fitted⟩

/-- Method `EcosystemMonitor.detect_anomaly`: returns `False` when
`len(self.data) < 100`; otherwise calls `self.model.predict`, which raises
(`none`) when the model has never been fitted. -/
def EcosystemMonitor.detectAnomaly (P : List ℚ → ℚ → Bool)
    (m : EcosystemMonitor) (v : ℚ) : Option Bool :=
  if m.data.length < 100 then some false
  else
    match m.fitted with
    | none => none
    | some sample => some (P sample v)

/-!
Symbolic model of the process keypair and RSA-PSS
(`generate_quantum_key`, `quantum_private_key.sign`,
`quantum_public_key.verify` in `pi_coin/__init__.py` /
`pi_coin/core/stablecoin.py`)

The library calls are modelled in the symbolic (Dolev-Yao) style: signing
yields the message tagged with the keypair identity, and verification
succeeds exactly when both the message and the keypair match.
-/

structure RSASignature where
  message : String
  keyId : ℕ
deriving DecidableEq

/-- Symbolic `private_key.sign(message, PSS, SHA256)`. -/
def rsaSign (keyId : ℕ) (message : String) : RSASignature := ⟨message, keyId⟩

/-- Symbolic `public_key.verify(signature, message, PSS, SHA256)`, with the
`InvalidSignature` exception of the library rendered as `false`. -/
def rsaVerify (signature : RSASignature) (message : String)
    (pubKeyId : ℕ) : Bool :=
  signature.message == message && signature.keyId == pubKeyId

/-- The single process-wide keypair created once at module load by
`generate_quantum_key()`. -/
def processKeyId : ℕ := 0

/-!
PiCoin mint (`pi_coin/core/stablecoin.py`, `PiCoin.__init__`)
-/

/-- Python `str(x)` applied to an amount; Python renders floats, the embedding
renders exact rationals.  Any injective rendering carries the proofs below. -/
def amountRepr (a : ℚ) : String := toString a

/-- The message signed over a coin:
`f"{self.coin_id}-{self.amount_pi}-{self.source}"`. -/
def coinMessage (coinId : String) (amount : ℚ) (source : String) : String :=
  coinId ++ "-" ++ amountRepr amount ++ "-" ++ source

structure Coin where
  amount_pi : ℚ
  value_usd : ℚ
  source : String
  coin_id : String
  signature : RSASignature
deriving DecidableEq

/-- Method `PiCoin.verify_signature`: verifies the stored signature over the message
rebuilt from the coin fields, against the process public key. -/
def Coin.verifySignature (c : Coin) : Bool :=
  rsaVerify c.signature (coinMessage c.coin_id c.amount_pi c.source) processKeyId

inductive MintError where
  | invalidSource
  | supplyCapExceeded
deriving DecidableEq

/-- The anomaly-mitigated amount: `self.amount_pi *= 0.95` exactly when the
detector flags the requested amount (`0.95 = 19/20` exactly over ℚ). -/
def mitigated (detect : ℚ → Bool) (amount : ℚ) : ℚ :=
  if detect amount then amount * (19 / 20) else amount

/-- Constructor `PiCoin.__init__` as a state transition on the class-level counter
`PiCoin._global_supply`.

* `detect` is the verdict of `monitor.detect_anomaly` (black-box model);
* `h` is `pi_based_hash` (SHA3-512 digest of the argument plus π digits,
  kept abstract: no claim below depends on digest values at mint time);
* `rand` is the value of `np.random.randint(1000000)`.

Returns the raised error, or the new supply together with the constructed
coin.  The second component records whether the anomaly detector was
consulted: the `ValueError` for a bad source is raised before
`monitor.detect_anomaly` is ever called. -/
def mintT (detect : ℚ → Bool) (h : String → String) (rand : ℕ)
    (supply : ℚ) (amount : ℚ) (source : String) :
    Except MintError (ℚ × Coin) × Bool :=
  if source ∈ ALLOWED_SOURCES then
    let coinId := h (amountRepr amount ++ "-" ++ source ++ "-" ++ toString rand)
    let adjusted := mitigated detect amount
    if TOTAL_SUPPLY < supply + adjusted then (.error .supplyCapExceeded, true)
    else
      (.ok (supply + adjusted,
            ⟨adjusted, adjusted * PI_VALUE_USD, source, coinId,
             rsaSign processKeyId (coinMessage coinId adjusted source)⟩), true)
  else (.error .invalidSource, false)

/-- Constructor call `PiCoin(...)` ignoring the instrumentation flag. -/
def mint (detect : ℚ → Bool) (h : String → String) (rand : ℕ)
    (supply : ℚ) (amount : ℚ) (source : String) :
    Except MintError (ℚ × Coin) :=
  (mintT detect h rand supply amount source).1

/-- One mint attempt seen by the ledger: a raised error leaves
`PiCoin._global_supply` untouched. -/
def mintStep (detect : ℚ → Bool) (h : String → String)
    (supply : ℚ) (req : ℕ × ℚ × String) : ℚ :=
  match mint detect h req.1 supply req.2.1 req.2.2 with
  | .ok (s, _) => s
  | .error _ => supply

/-- The ledger counter after a sequence of mint attempts. -/
def mintFold (detect : ℚ → Bool) (h : String → String)
    (supply : ℚ) (reqs : List (ℕ × ℚ × String)) : ℚ :=
  reqs.foldl (mintStep detect h) supply

/-!
Origin verification (`pi_coin/core/verification.py`)

`verification.py` resolves `ALLOWED_SOURCES` against the package root (the
name is defined in `pi_coin/utils/config.py`; the package root exposes the
same list as `ECOSYSTEM_SOURCES`), so the embedding uses the one allow list
above.  The fitted `RandomForestClassifier` prediction is a black-box
parameter, as for the monitor.
-/

/-- State of the module-level `SourceVerifier` instance: whether
`self.is_trained` has been set by a successful `train` call. -/
structure SourceVerifier where
  is_trained : Bool
deriving DecidableEq

/-- The fresh `SourceVerifier()` created at module load. -/
def SourceVerifier.start : SourceVerifier := ⟨false⟩

/-- Method `SourceVerifier.train`: returns early below 10 samples, otherwise fits
the model and sets `is_trained`.  `n` is `len(data)`. -/
def SourceVerifier.trainOn (v : SourceVerifier) (n : ℕ) : SourceVerifier :=
  if n < 10 then v else ⟨true⟩

/-- Method `SourceVerifier.predict_validity`: defaults to valid while untrained,
otherwise delegates to the fitted model `Pcls`. -/
def SourceVerifier.predictValidity (Pcls : List ℚ → Bool)
    (v : SourceVerifier) (features : List ℚ) : Bool :=
  if v.is_trained then Pcls features else true

/-- Python `str(np.pi)[:10]`: the first ten characters of the Python rendering of
`numpy.pi = 3.141592653589793`. -/
def piDigits10 : List Char := "3.14159265".data

/-- Python `int(c)` on a single character: succeeds on a decimal digit and
raises `ValueError` otherwise (in particular on the decimal point). -/
def intOfDigitChar (c : Char) : Option ℕ :=
  if c.isDigit then some (c.toNat - 48) else none

/-- Stage-2 value `pi_correlation = sum(int(d) for d in pi_digits) / 10.0` from
`verify_origin`; `none` when the sum raises `ValueError`. -/
def piCorrelation : Option ℚ :=
  (piDigits10.mapM intOfDigitChar).map (fun ds => ((ds.sum : ℚ)) / 10)

/-- Which of the post-allow-list stages of `verify_origin` were actually
entered (classifier prediction, digest comparison, anomaly query, signature
check).  The spec demands short-circuiting because the later stages have
observable side effects. -/
structure VerifyTrace where
  classifierCalled : Bool
  hashCalled : Bool
  anomalyCalled : Bool
  signatureCalled : Bool
deriving DecidableEq

/-- Function `verify_origin(source, pi_coin_id, amount, freq)` with an execution
trace.  The result is `none` when the Python call raises instead of
returning a boolean.  Stage by stage, following the source:

1. allow/deny-list check, returning `False` at once on failure;
2. `pi_correlation` (raises `ValueError`: `int` applied to the decimal point
   of `str(np.pi)[:10]`), then the classifier;
3. digest comparison: `pi_based_hash(f"{source}-{pi_coin_id}-{amount}")`
   against `pi_based_hash(pi_coin_id)` (hash function `h` abstract);
4. `monitor.detect_anomaly(amount)` (may itself raise, see the monitor);
5. signature stage: the source references the name `padding`, which
   `verification.py` never imports, so the `try` body raises `NameError`;
   the bare `except:` catches it and returns `False`. -/
def verifyOriginT (cls : SourceVerifier) (Pcls : List ℚ → Bool)
    (mon : EcosystemMonitor) (Pdet : List ℚ → ℚ → Bool)
    (h : String → String)
    (source piCoinId : String) (amount : ℚ) (freq : ℤ) :
    Option Bool × VerifyTrace :=
  if source ∉ ALLOWED_SOURCES ∨ source ∈ REJECTED_SOURCES then
    (some false, ⟨false, false, false, false⟩)
  else
    match piCorrelation with
    | none => (none, ⟨false, false, false, false⟩)
    | some pc =>
      let features : List ℚ := [amount, (freq : ℚ), pc]
      if cls.predictValidity Pcls features = false then
        (some false, ⟨true, false, false, false⟩)
      else
        let expected := h (source ++ "-" ++ piCoinId ++ "-" ++ amountRepr amount)
        let actual := h piCoinId
        if expected ≠ actual then (some false, ⟨true, true, false, false⟩)
        else
          match mon.detectAnomaly Pdet amount with
          | none => (none, ⟨true, true, true, false⟩)
          | some true => (some false, ⟨true, true, true, false⟩)
          | some false => (some false, ⟨true, true, true, true⟩)

/-- Function `verify_origin` ignoring the trace. -/
def verifyOrigin (cls : SourceVerifier) (Pcls : List ℚ → Bool)
    (mon : EcosystemMonitor) (Pdet : List ℚ → ℚ → Bool)
    (h : String → String)
    (source piCoinId : String) (amount : ℚ) (freq : ℤ) : Option Bool :=
  (verifyOriginT cls Pcls mon Pdet h source piCoinId amount freq).1

/-!
Consensus and transaction processing (`pi_coin/core/transaction.py`)
-/

/-- The vote of simulated validator `i` in `_simulate_consensus`:
`await asyncio.sleep(0.1) or (i % 2 == 0)` — `asyncio.sleep` returns `None`,
so the vote is `i % 2 == 0`. -/
def validatorVote (i : ℕ) : Bool := i % 2 == 0

/-- The consensus round with the per-validator vote left as a parameter: the
loop gathers one vote per validator in index order, and only after all three
are collected decides `sum(votes) >= 2`.  Returns the recorded vote sequence
`self.consensus_votes` and the decision. -/
def simulateConsensusWith (vote : ℕ → Bool) : List Bool × Bool :=
  let votes := (List.range 3).map vote
  (votes, decide (2 ≤ votes.count true))

/-- Method `Transaction._simulate_consensus` as written, with the hard-coded
alternating votes. -/
def simulateConsensus : List Bool × Bool :=
  simulateConsensusWith validatorVote

/-- Method `Transaction.process` for one transaction.  Returns the outcome (`none`
when the Python call raises) together with the list of values assigned to
`self.status` during the call, in order; the field starts at `"pending"`
from `__init__` and keeps its previous value when the call raises.

Control flow from the source:
* `verify_origin(self.source, self.tx_id, self.amount_pi)` (default
  `freq = 1`); a `False` result assigns `"failed"` and returns;
* a raise inside `verify_origin` propagates (no assignment);
* on a `True` result, `self._ai_route_transaction()` runs next; that method
  uses the name `np`, which `transaction.py` never imports, so it raises
  `NameError` before the consensus, monitor-train, broadcast and
  `"completed"` steps can run. -/
def processTx (cls : SourceVerifier) (Pcls : List ℚ → Bool)
    (mon : EcosystemMonitor) (Pdet : List ℚ → ℚ → Bool)
    (h : String → String)
    (source txIdRepr : String) (amount : ℚ) :
    Option Bool × List String :=
  match verifyOrigin cls Pcls mon Pdet h source txIdRepr amount 1 with
  | some false => (some false, ["failed"])
  | none => (none, [])
  | some true => (none, [])

/-!
Theorems for the claims
-/

/-- C9: for every queried amount, while the accumulated sample holds fewer
than 100 observations, `detect_anomaly` returns `False` (fails open),
whatever the fitted model would predict. -/
theorem detect_anomaly_fails_open_below_threshold
    (P : List ℚ → ℚ → Bool) (m : EcosystemMonitor) (v : ℚ)
    (hlen : m.data.length < 100) :
    m.detectAnomaly P v = some false := by
  unfold EcosystemMonitor.detectAnomaly
  rw [if_pos hlen]

theorem detect_anomaly_fails_open_below_threshold_witness :
    EcosystemMonitor.start.data.length < 100 ∧
      EcosystemMonitor.start.detectAnomaly (fun _ _ => false) 0 = some false :=
  ⟨by decide,
   detect_anomaly_fails_open_below_threshold (fun _ _ => false)
     EcosystemMonitor.start 0 (by decide)⟩

/-- C10: `detect_anomaly` is not total at the threshold boundary: after a
single `train` call with a batch of exactly 100 observations the sample
holds 100 elements, so `detect_anomaly` bypasses the fail-open branch and
calls `model.predict`, yet `train` only fits the model when the sample
exceeds 100 elements; the call raises (`none`) instead of returning a
boolean. -/
theorem detect_anomaly_boundary_raises
    (P : List ℚ → ℚ → Bool) (batch : List ℚ) (v : ℚ)
    (hlen : batch.length = 100) :
    (EcosystemMonitor.start.train batch).detectAnomaly P v = none := by
  unfold EcosystemMonitor.start EcosystemMonitor.train
    EcosystemMonitor.detectAnomaly
  simp [hlen]

theorem detect_anomaly_boundary_raises_witness :
    (List.replicate 100 (1 : ℚ)).length = 100 ∧
      (EcosystemMonitor.start.train
          (List.replicate 100 (1 : ℚ))).detectAnomaly (fun _ _ => false) 0 =
        none :=
  ⟨by simp,
   detect_anomaly_boundary_raises (fun _ _ => false)
     (List.replicate 100 (1 : ℚ)) 0 (by simp)⟩

/-- C3: the spec scenario and the repository test
`test_verify_valid_source` expect `verify_origin("mining", "id2", 1.0, 5)`
to return `True`, but the call raises `ValueError` for every allowed source:
stage 2 applies Python `int` to each character of `str(np.pi)[:10]`, which
contains the decimal point.  The embedded call therefore yields `none`
(raise) for every classifier state, monitor state and hash function. -/
theorem verify_origin_mining_raises
    (cls : SourceVerifier) (Pcls : List ℚ → Bool)
    (mon : EcosystemMonitor) (Pdet : List ℚ → ℚ → Bool)
    (h : String → String) :
    verifyOrigin cls Pcls mon Pdet h "mining" "id2" 1 5 = none := by
  have hpc : piCorrelation = none := by decide
  unfold verifyOrigin verifyOriginT
  rw [if_neg (by decide), hpc]

/-- C4: a call whose source fails the stage-1 allow/deny-list check returns
`False` at once: the classifier, the digest computation, the anomaly query
and the signature check are never entered. -/
theorem verify_origin_short_circuit
    (cls : SourceVerifier) (Pcls : List ℚ → Bool)
    (mon : EcosystemMonitor) (Pdet : List ℚ → ℚ → Bool)
    (h : String → String) (source piCoinId : String) (amount : ℚ) (freq : ℤ)
    (hsrc : source ∉ ALLOWED_SOURCES ∨ source ∈ REJECTED_SOURCES) :
    verifyOriginT cls Pcls mon Pdet h source piCoinId amount freq =
      (some false, ⟨false, false, false, false⟩) := by
  unfold verifyOriginT
  rw [if_pos hsrc]

theorem verify_origin_short_circuit_witness :
    ("exchange" ∉ ALLOWED_SOURCES ∨ "exchange" ∈ REJECTED_SOURCES) ∧
      verifyOriginT .start (fun _ => true) .start (fun _ _ => true)
          (fun s => s) "exchange" "id1" 10 1 =
        (some false, ⟨false, false, false, false⟩) :=
  ⟨by decide,
   verify_origin_short_circuit .start (fun _ => true) .start (fun _ _ => true)
     (fun s => s) "exchange" "id1" 10 1 (by decide)⟩

/-- C5: the consensus round gathers exactly one vote per simulated validator,
in index order, records the realized three-vote sequence on the transaction,
and only after all votes are gathered accepts iff at least 2 of the 3 votes
are affirmative; with the hard-coded alternating votes of the source the
recorded sequence is `[True, False, True]` and the round accepts. -/
theorem consensus_three_votes_majority :
    (∀ vote : ℕ → Bool,
        (simulateConsensusWith vote).1 = [vote 0, vote 1, vote 2] ∧
          ((simulateConsensusWith vote).2 = true ↔
            2 ≤ (simulateConsensusWith vote).1.count true)) ∧
      simulateConsensus.1 = [true, false, true] ∧ simulateConsensus.2 = true := by
  refine ⟨fun vote => ⟨rfl, by simp [simulateConsensusWith]⟩, by decide, by decide⟩

/-- C8: a mint whose source is outside the allow-list raises the
invalid-source error before the anomaly detector is consulted (trace flag
`false`) and leaves the ledger counter unchanged, so neither the cap check
nor the increment happens. -/
theorem mint_invalid_source_rejected
    (detect : ℚ → Bool) (h : String → String) (rand : ℕ)
    (supply amount : ℚ) (source : String)
    (hsrc : source ∉ ALLOWED_SOURCES) :
    mintT detect h rand supply amount source = (.error .invalidSource, false) ∧
      mintStep detect h supply (rand, amount, source) = supply := by
  have hT : mintT detect h rand supply amount source =
      (.error .invalidSource, false) := by
    unfold mintT
    rw [if_neg hsrc]
  refine ⟨hT, ?_⟩
  unfold mintStep mint
  rw [hT]

theorem mint_invalid_source_rejected_witness :
    "exchange" ∉ ALLOWED_SOURCES ∧
      (mintT (fun _ => false) (fun s => s) 0 0 10 "exchange" =
          (.error .invalidSource, false) ∧
        mintStep (fun _ => false) (fun s => s) 0 (0, 10, "exchange") = 0) :=
  ⟨by decide,
   mint_invalid_source_rejected (fun _ => false) (fun s => s) 0 0 10 "exchange"
     (by decide)⟩

/-- The explicit shape of a successful mint: the adjusted amount is added to
the counter and stamped on the coin, and the signature covers the message
built from the coin fields. -/
lemma mint_eq_ok (detect : ℚ → Bool) (h : String → String) (rand : ℕ)
    (supply amount : ℚ) (source : String)
    (hsrc : source ∈ ALLOWED_SOURCES)
    (hcap : ¬ TOTAL_SUPPLY < supply + mitigated detect amount) :
    mint detect h rand supply amount source =
      .ok (supply + mitigated detect amount,
        ⟨mitigated detect amount, mitigated detect amount * PI_VALUE_USD,
         source, h (amountRepr amount ++ "-" ++ source ++ "-" ++ toString rand),
         rsaSign processKeyId
           (coinMessage
             (h (amountRepr amount ++ "-" ++ source ++ "-" ++ toString rand))
             (mitigated detect amount) source)⟩) := by
  unfold mint mintT
  rw [if_pos hsrc, if_neg hcap]

/-- A successful mint always lands at or below the cap: the guard of the
check-and-increment rejected the opposite. -/
lemma mint_ok_le (detect : ℚ → Bool) (h : String → String) (rand : ℕ)
    (supply amount : ℚ) (source : String) (s' : ℚ) (c : Coin)
    (hm : mint detect h rand supply amount source = .ok (s', c)) :
    s' ≤ TOTAL_SUPPLY := by
  unfold mint mintT at hm
  by_cases hsrc : source ∈ ALLOWED_SOURCES
  · rw [if_pos hsrc] at hm
    by_cases hcap : TOTAL_SUPPLY < supply + mitigated detect amount
    · rw [if_pos hcap] at hm
      exact absurd hm (by simp)
    · rw [if_neg hcap] at hm
      simp only [Except.ok.injEq, Prod.mk.injEq] at hm
      rw [← hm.1]
      exact le_of_not_lt hcap
  · rw [if_neg hsrc] at hm
    exact absurd hm (by simp)

/-- One mint attempt preserves the cap bound on the ledger counter. -/
lemma mintStep_le (detect : ℚ → Bool) (h : String → String)
    (supply : ℚ) (req : ℕ × ℚ × String)
    (hs : supply ≤ TOTAL_SUPPLY) :
    mintStep detect h supply req ≤ TOTAL_SUPPLY := by
  unfold mintStep
  rcases hm : mint detect h req.1 supply req.2.1 req.2.2 with e | p
  · exact hs
  · exact mint_ok_le detect h req.1 supply req.2.1 req.2.2 p.1 p.2 (by rw [hm])

/-- C1: starting from any ledger counter at or below the cap, no sequence of
mint attempts can push `_global_supply` past `TOTAL_SUPPLY`: an attempt
whose (possibly mitigation-reduced) amount would cross the cap raises the
supply-cap error and performs no increment, leaving every previously
accepted mint counted. -/
theorem mint_supply_cap_invariant (detect : ℚ → Bool) (h : String → String)
    (reqs : List (ℕ × ℚ × String)) (s₀ : ℚ)
    (h₀ : s₀ ≤ TOTAL_SUPPLY) :
    mintFold detect h s₀ reqs ≤ TOTAL_SUPPLY ∧
      ∀ (rand : ℕ) (s a : ℚ) (source : String), source ∈ ALLOWED_SOURCES →
        TOTAL_SUPPLY < s + mitigated detect a →
          mintT detect h rand s a source = (.error .supplyCapExceeded, true) ∧
            mintStep detect h s (rand, a, source) = s := by
  constructor
  · unfold mintFold
    induction reqs generalizing s₀ with
    | nil => exact h₀
    | cons req rest ih =>
      exact ih (mintStep detect h s₀ req) (mintStep_le detect h s₀ req h₀)
  · intro rand s a source hsrc hcap
    have hT : mintT detect h rand s a source =
        (.error .supplyCapExceeded, true) := by
      unfold mintT
      rw [if_pos hsrc, if_pos hcap]
    refine ⟨hT, ?_⟩
    unfold mintStep mint
    rw [hT]

theorem mint_supply_cap_invariant_witness :
    (0 : ℚ) ≤ TOTAL_SUPPLY ∧
      (mintFold (fun _ => false) (fun s => s) 0 [(0, 10, "mining")] ≤
          TOTAL_SUPPLY ∧
        ∀ (rand : ℕ) (s a : ℚ) (source : String), source ∈ ALLOWED_SOURCES →
          TOTAL_SUPPLY < s + mitigated (fun _ => false) a →
            mintT (fun _ => false) (fun s => s) rand s a source =
                (.error .supplyCapExceeded, true) ∧
              mintStep (fun _ => false) (fun s => s) s (rand, a, source) = s) :=
  ⟨by norm_num [TOTAL_SUPPLY],
   mint_supply_cap_invariant (fun _ => false) (fun s => s) [(0, 10, "mining")] 0
     (by norm_num [TOTAL_SUPPLY])⟩

/-- C7: when the detector flags the requested amount, the minted amount is
exactly `0.95` times the request, and this reduced amount is what the cap
check uses and what the counter is incremented by: within the cap the mint
succeeds with the reduced amount on the coin and on the counter, past the
cap it raises the supply-cap error. -/
theorem mint_anomaly_mitigation (detect : ℚ → Bool) (h : String → String)
    (rand : ℕ) (supply amount : ℚ) (source : String)
    (hdet : detect amount = true) (hsrc : source ∈ ALLOWED_SOURCES) :
    (supply + amount * (19 / 20) ≤ TOTAL_SUPPLY →
        ∃ c : Coin,
          mint detect h rand supply amount source =
              .ok (supply + amount * (19 / 20), c) ∧
            c.amount_pi = amount * (19 / 20)) ∧
      (TOTAL_SUPPLY < supply + amount * (19 / 20) →
        mint detect h rand supply amount source = .error .supplyCapExceeded) := by
  have hmit : mitigated detect amount = amount * (19 / 20) := by
    unfold mitigated
    rw [hdet, if_pos rfl]
  constructor
  · intro hle
    have hok := mint_eq_ok detect h rand supply amount source hsrc
      (by rw [hmit]; exact not_lt.mpr hle)
    rw [hmit] at hok
    exact ⟨_, hok, rfl⟩
  · intro hlt
    unfold mint mintT
    rw [if_pos hsrc, if_pos (show TOTAL_SUPPLY < supply + mitigated detect amount
      by rw [hmit]; exact hlt)]

theorem mint_anomaly_mitigation_witness :
    (fun _ : ℚ => true) 100 = true ∧ "mining" ∈ ALLOWED_SOURCES ∧
      ((0 + 100 * (19 / 20) ≤ TOTAL_SUPPLY →
          ∃ c : Coin,
            mint (fun _ => true) (fun s => s) 0 0 100 "mining" =
                .ok (0 + 100 * (19 / 20), c) ∧
              c.amount_pi = 100 * (19 / 20)) ∧
        (TOTAL_SUPPLY < 0 + 100 * (19 / 20) →
          mint (fun _ => true) (fun s => s) 0 0 100 "mining" =
            .error .supplyCapExceeded)) :=
  ⟨rfl, by decide,
   mint_anomaly_mitigation (fun _ => true) (fun s => s) 0 0 100 "mining"
     rfl (by decide)⟩

/-- C2: the spec demands `pending → verified → completed`, with `verified`
assigned as soon as the origin verifier succeeds; but no statement of
`Transaction.process` ever assigns `"verified"` (despite the status list
documented in the source), and on verifier success the routing step raises
`NameError` (`np` is unimported) before consensus, so the only value
`process` ever assigns to `status` is `"failed"` — a raise leaves the field
at `"pending"`. -/
theorem process_status_never_verified (cls : SourceVerifier)
    (Pcls : List ℚ → Bool) (mon : EcosystemMonitor)
    (Pdet : List ℚ → ℚ → Bool) (h : String → String)
    (source txIdRepr : String) (amount : ℚ) :
    ("verified" ∉ (processTx cls Pcls mon Pdet h source txIdRepr amount).2 ∧
        "completed" ∉ (processTx cls Pcls mon Pdet h source txIdRepr amount).2) ∧
      ((processTx cls Pcls mon Pdet h source txIdRepr amount).2 = [] ∨
        (processTx cls Pcls mon Pdet h source txIdRepr amount).2 = ["failed"]) := by
  have hcases :
      (processTx cls Pcls mon Pdet h source txIdRepr amount).2 = [] ∨
        (processTx cls Pcls mon Pdet h source txIdRepr amount).2 = ["failed"] := by
    unfold processTx
    rcases verifyOrigin cls Pcls mon Pdet h source txIdRepr amount 1 with _ | b
    · exact Or.inl rfl
    · cases b
      · exact Or.inr rfl
      · exact Or.inl rfl
  refine ⟨?_, hcases⟩
  rcases hcases with hc | hc <;> rw [hc] <;> exact ⟨by simp, by simp⟩

/-- Splitting a character list at its first dash is unambiguous: if neither
left part contains a dash, equal concatenations force equal parts. -/
lemma splitAtFirstDash {l₁ l₂ r₁ r₂ : List Char}
    (h₁ : '-' ∉ l₁) (h₂ : '-' ∉ l₂)
    (h : l₁ ++ '-' :: r₁ = l₂ ++ '-' :: r₂) : l₁ = l₂ ∧ r₁ = r₂ := by
  induction l₁ generalizing l₂ with
  | nil =>
    cases l₂ with
    | nil => simpa using h
    | cons c t =>
      exfalso
      simp only [List.nil_append, List.cons_append, List.cons.injEq] at h
      exact h₂ (by rw [h.1]; exact List.mem_cons_self c t)
  | cons c t ih =>
    cases l₂ with
    | nil =>
      exfalso
      simp only [List.cons_append, List.nil_append, List.cons.injEq] at h
      exact h₁ (by rw [← h.1]; exact List.mem_cons_self c t)
    | cons c' t' =>
      simp only [List.cons_append, List.cons.injEq] at h
      have ht := ih (fun hm => h₁ (List.mem_cons_of_mem _ hm))
        (fun hm => h₂ (List.mem_cons_of_mem _ hm)) h.2
      exact ⟨by rw [h.1, ht.1], ht.2⟩

/-- Splitting a character list at its last dash is unambiguous: if neither
right part contains a dash, equal concatenations force equal parts. -/
lemma splitAtLastDash {l₁ l₂ r₁ r₂ : List Char}
    (h₁ : '-' ∉ r₁) (h₂ : '-' ∉ r₂)
    (h : l₁ ++ '-' :: r₁ = l₂ ++ '-' :: r₂) : l₁ = l₂ ∧ r₁ = r₂ := by
  have hrev : r₁.reverse ++ '-' :: l₁.reverse =
      r₂.reverse ++ '-' :: l₂.reverse := by
    have hc := congrArg List.reverse h
    simpa [List.reverse_append, List.append_assoc] using hc
  have hsplit := splitAtFirstDash (by simpa using h₁) (by simpa using h₂) hrev
  exact ⟨List.reverse_injective hsplit.2, List.reverse_injective hsplit.1⟩

/-- The signed message determines the coin fields, provided the id and the
source are dash-free (as they are for minted coins: the id is a hex digest,
the source one of the allow-list words) and the amount rendering does not
collide on the two amounts at hand. -/
lemma coinMessage_inj {id₁ id₂ src₁ src₂ : String} {a₁ a₂ : ℚ}
    (hid₁ : '-' ∉ id₁.data) (hid₂ : '-' ∉ id₂.data)
    (hsrc₁ : '-' ∉ src₁.data) (hsrc₂ : '-' ∉ src₂.data)
    (h : coinMessage id₁ a₁ src₁ = coinMessage id₂ a₂ src₂) :
    id₁ = id₂ ∧ amountRepr a₁ = amountRepr a₂ ∧ src₁ = src₂ := by
  have hdash : ("-" : String).data = ['-'] := rfl
  have hdata : id₁.data ++ '-' :: ((amountRepr a₁).data ++ '-' :: src₁.data) =
      id₂.data ++ '-' :: ((amountRepr a₂).data ++ '-' :: src₂.data) := by
    have hc := congrArg String.data h
    simpa [coinMessage, String.data_append, hdash, List.append_assoc] using hc
  have h1 := splitAtFirstDash hid₁ hid₂ hdata
  have h2 := splitAtLastDash hsrc₁ hsrc₂ h1.2
  exact ⟨String.ext h1.1, String.ext h2.1, String.ext h2.2⟩

/-- Every source on the allow-list is dash-free. -/
lemma allowed_source_dash_free {s : String} (hs : s ∈ ALLOWED_SOURCES) :
    '-' ∉ s.data := by
  simp only [ALLOWED_SOURCES, List.mem_cons, List.mem_singleton,
    List.not_mem_nil, or_false] at hs
  rcases hs with rfl | rfl | rfl <;> decide

/-- C6: a successfully minted coin carries a signature that verifies against
the process public key over the message built from its own
`{id, amount, source}` fields; the same signature fails to verify against
the message built after changing any of those fields (for well-formed
fields: dash-free id and source, non-colliding amount renderings). -/
theorem coin_signature_binding (detect : ℚ → Bool) (h : String → String)
    (rand : ℕ) (supply amount : ℚ) (source : String) (s' : ℚ) (c : Coin)
    (hm : mint detect h rand supply amount source = .ok (s', c))
    (hid : '-' ∉ c.coin_id.data)
    (id' : String) (a' : ℚ) (src' : String)
    (hid' : '-' ∉ id'.data) (hsrc' : '-' ∉ src'.data)
    (hne : ¬(id' = c.coin_id ∧ a' = c.amount_pi ∧ src' = c.source))
    (hrep : amountRepr a' = amountRepr c.amount_pi → a' = c.amount_pi) :
    c.verifySignature = true ∧
      rsaVerify c.signature (coinMessage id' a' src') processKeyId = false := by
  have hspec : source ∈ ALLOWED_SOURCES ∧ c.source = source ∧
      c.signature =
        rsaSign processKeyId (coinMessage c.coin_id c.amount_pi c.source) := by
    unfold mint mintT at hm
    by_cases hsrc : source ∈ ALLOWED_SOURCES
    · rw [if_pos hsrc] at hm
      by_cases hcap : TOTAL_SUPPLY < supply + mitigated detect amount
      · rw [if_pos hcap] at hm
        exact absurd hm (by simp)
      · rw [if_neg hcap] at hm
        simp only [Except.ok.injEq, Prod.mk.injEq] at hm
        rw [← hm.2]
        exact ⟨hsrc, rfl, rfl⟩
    · rw [if_neg hsrc] at hm
      exact absurd hm (by simp)
  have hcsrc : '-' ∉ c.source.data := by
    rw [hspec.2.1]
    exact allowed_source_dash_free hspec.1
  constructor
  · rw [Coin.verifySignature, hspec.2.2]
    simp [rsaSign, rsaVerify]
  · rw [hspec.2.2]
    have hmsg : coinMessage c.coin_id c.amount_pi c.source ≠
        coinMessage id' a' src' := by
      intro heq
      have hinj := coinMessage_inj hid hid' hcsrc hsrc' heq
      exact hne ⟨hinj.1.symm, hrep hinj.2.1.symm, hinj.2.2.symm⟩
    simp [rsaSign, rsaVerify, hmsg]

/-- The coin produced by
`mint (fun _ => false) (fun _ => "cid") 0 0 10 "mining"`. -/
def mintWitnessCoin : Coin :=
  ⟨10, 10 * PI_VALUE_USD, "mining", "cid",
   rsaSign processKeyId (coinMessage "cid" 10 "mining")⟩

theorem coin_signature_binding_witness :
    mint (fun _ => false) (fun _ => "cid") 0 0 10 "mining" =
        .ok (0 + 10, mintWitnessCoin) ∧
      ('-' ∉ mintWitnessCoin.coin_id.data ∧
        ¬("did" = mintWitnessCoin.coin_id ∧ (10 : ℚ) = mintWitnessCoin.amount_pi ∧
          "mining" = mintWitnessCoin.source)) ∧
      (mintWitnessCoin.verifySignature = true ∧
        rsaVerify mintWitnessCoin.signature (coinMessage "did" 10 "mining")
            processKeyId = false) := by
  have hmit : mitigated (fun _ : ℚ => false) 10 = 10 := by simp [mitigated]
  have hm : mint (fun _ => false) (fun _ => "cid") 0 0 10 "mining" =
      .ok (0 + 10, mintWitnessCoin) := by
    have hok := mint_eq_ok (fun _ => false) (fun _ => "cid") 0 0 10 "mining"
      (by decide) (by rw [hmit]; norm_num [TOTAL_SUPPLY])
    rw [hmit] at hok
    simpa [mintWitnessCoin] using hok
  exact ⟨hm, ⟨by decide, by decide⟩,
    coin_signature_binding (fun _ => false) (fun _ => "cid") 0 0 10 "mining"
      (0 + 10) mintWitnessCoin hm (by decide) "did" 10 "mining" (by decide)
      (by decide) (by decide) (fun _ => rfl)⟩

end PiSDK
